import Mathlib

/-!
Verification of rinha-backend2025-go: ledger, money formatting, failure gate,
health check and dispatcher.

A shallow embedding of the Go sources

* `internal/pkg/models/models.go`
* `internal/pkg/storage/memory.go`
* `internal/pkg/processor/processor.go`

Conventions of the embedding.

* `int64` / `int` / `int32` values are integers (`Int`); every arithmetic
  operation of the source that can overflow is followed by the explicit
  two's-complement reduction `wrap64` / `wrap32`.
* A `time.Time` is the instant it denotes, in nanoseconds since the Unix epoch
  (`Int`); `Before` / `After` compare instants.
* Mutable objects are passed and returned explicitly.  The outside world (clock,
  coordination store, the two upstreams) is an environment of oracles whose
  answers may depend on everything the program did before; every interaction
  is appended to a trace.
* Locks and atomics are not modelled: every function is embedded as it runs
  when no other goroutine interleaves with it.
-/

namespace Rinha

/-! ## Machine integers -/

/-- Two's-complement reduction to the `int64` range. -/
def wrap64 (x : Int) : Int := (x + 9223372036854775808) % 18446744073709551616 - 9223372036854775808

/-- Two's-complement reduction to the `int32` range. -/
def wrap32 (x : Int) : Int := (x + 2147483648) % 4294967296 - 2147483648

/-- The largest `int64`. -/
def maxInt64 : Int := 9223372036854775807

/-- The smallest `int64`. -/
def minInt64 : Int := -9223372036854775808

/-! ## models.go -/

/-- The struct `models.Payment`. -/
structure Payment where
  CorrelationID : String
  AmountCents : Int
  RequestedAt : Int
  ProcessorType : String
  deriving DecidableEq, Repr

/-- The struct `models.ProcessorSummary`. -/
structure ProcessorSummary where
  TotalRequests : Int
  TotalAmountCents : Int
  deriving DecidableEq, Repr

/-- The struct `models.PaymentSummary`. -/
structure PaymentSummary where
  Default : ProcessorSummary
  Fallback : ProcessorSummary
  deriving DecidableEq, Repr

/-! ## storage/memory.go -/

/-- The struct `storage.MemoryStorage` (without its lock). -/
structure MemoryStorage where
  payments : List Payment
  defaultSummary : ProcessorSummary
  fallbackSummary : ProcessorSummary
  deriving DecidableEq, Repr

/-- The constructor `NewMemoryStorage`: empty history, zeroed aggregates. -/
def NewMemoryStorage : MemoryStorage :=
  { payments := [], defaultSummary := ⟨0, 0⟩, fallbackSummary := ⟨0, 0⟩ }

/-- The two statements `x.TotalRequests++; x.TotalAmountCents += amount`. -/
def ProcessorSummary.add (x : ProcessorSummary) (amount : Int) : ProcessorSummary :=
  { TotalRequests := wrap64 (x.TotalRequests + 1)
    TotalAmountCents := wrap64 (x.TotalAmountCents + amount) }

/-- The method `(*MemoryStorage).StorePayment`. -/
def MemoryStorage.StorePayment (s : MemoryStorage) (payment : Payment) : MemoryStorage :=
  let payments := s.payments ++ [payment]
  if payment.ProcessorType = "default" then
    { s with payments := payments, defaultSummary := s.defaultSummary.add payment.AmountCents }
  else
    { s with payments := payments, fallbackSummary := s.fallbackSummary.add payment.AmountCents }

/-- The method `time.Time.Before`. -/
def Before (t u : Int) : Bool := decide (t < u)

/-- The method `time.Time.After`. -/
def After (t u : Int) : Bool := decide (t > u)

/-- One iteration of the loop of `GetSummary` over the pair
`(defaultSummary, fallbackSummary)`. -/
def scanStep (tFrom tTo : Option Int) (acc : ProcessorSummary × ProcessorSummary)
    (payment : Payment) : ProcessorSummary × ProcessorSummary :=
  if (match tFrom with
      | some f => Before payment.RequestedAt f
      | none => false) then acc
  else if (match tTo with
      | some t => After payment.RequestedAt t
      | none => false) then acc
  else if payment.ProcessorType = "default" then
    (acc.1.add payment.AmountCents, acc.2)
  else
    (acc.1, acc.2.add payment.AmountCents)

/-- The method `(*MemoryStorage).GetSummary`; a nil bound is `none`. -/
def MemoryStorage.GetSummary (s : MemoryStorage) (tFrom tTo : Option Int) : PaymentSummary :=
  match tFrom, tTo with
  | none, none => { Default := s.defaultSummary, Fallback := s.fallbackSummary }
  | _, _ =>
    let r := s.payments.foldl (scanStep tFrom tTo) (⟨0, 0⟩, ⟨0, 0⟩)
    { Default := r.1, Fallback := r.2 }

/-! ## processor.go: money formatting -/

/-- The call `fmt.Sprintf("%d", n)`: decimal digits, preceded by `-` when negative. -/
def fmtInt (n : Int) : String :=
  if n < 0 then "-" ++ Nat.repr n.natAbs else Nat.repr n.toNat

/-- The function `CentsToDecimalString`; `/` and `%` of Go truncate toward zero. -/
def CentsToDecimalString (cents : Int) : String :=
  let whole := Int.tdiv cents 100
  let frac := Int.tmod cents 100
  let res := ""
  let res := res ++ fmtInt whole
  let res := if cents < 0 then "-" else res
  if frac = 0 then res
  else
    let res := res ++ "."
    let res := if frac < 10 then res ++ "0" else res
    res ++ fmtInt frac

/-! ## The outside world -/

/-- An interaction of the program with the outside world. -/
inductive Effect where
  /-- A reading of the clock (`time.Now`, also inside `time.Since`). -/
  | now
  /-- The call `cache.SetNX(key, value, expiration)`. -/
  | setNX (key value : String) (expiration : Int)
  /-- The call `httpClient.DoTimeout` of a `GET` request. -/
  | get (url : String) (timeout : Int)
  /-- The call `httpClient.Do` of a `POST` request with a JSON body. -/
  | post (url body : String)
  /-- The call `log.Printf` of `ProcessPayment`. -/
  | log (correlationID : String)
  deriving DecidableEq, Repr

/-- What the liveness request yields: the error of `DoTimeout`, or a status code
with the body as `fastjson` reads it (`none` when `ParseBytes` fails, otherwise
the value of `GetBool("failing")`). -/
inductive GetResponse where
  | err
  | resp (status : Int) (failing : Option Bool)
  deriving DecidableEq, Repr

/-- What the `select` of `tryProcessor` yields: the error of `httpClient.Do`, a
status code, or the expiry of the shared context. -/
inductive PostResponse where
  | err
  | resp (status : Int)
  | ctxDone
  deriving DecidableEq, Repr

/-- The outside world: each oracle answers from the trace of what happened before. -/
structure Env where
  clock : List Effect → Int
  setNX : List Effect → String → String → Int → Bool × Bool
  get : List Effect → String → Int → GetResponse
  post : List Effect → String → String → PostResponse
  formatRFC3339 : Int → String

/-- The call `time.Now()`. -/
def Env.Now (env : Env) (tr : List Effect) : Int × List Effect :=
  (env.clock tr, tr ++ [Effect.now])

/-- The method `(*RedisCache).SetNX`: the flag and whether the error is non-nil. -/
def Env.SetNX (env : Env) (tr : List Effect) (key value : String) (expiration : Int) :
    (Bool × Bool) × List Effect :=
  (env.setNX tr key value expiration, tr ++ [Effect.setNX key value expiration])

/-- The liveness request with its timeout. -/
def Env.Get (env : Env) (tr : List Effect) (url : String) (timeout : Int) :
    GetResponse × List Effect :=
  (env.get tr url timeout, tr ++ [Effect.get url timeout])

/-- The settlement request raced against the context. -/
def Env.Post (env : Env) (tr : List Effect) (url body : String) :
    PostResponse × List Effect :=
  (env.post tr url body, tr ++ [Effect.post url body])

/-- The constant `time.Second`, in nanoseconds. -/
def Second : Int := 1000000000

/-- The method `time.Time.Sub`: the difference, saturated to the range of a `Duration`. -/
def Sub (t u : Int) : Int := max minInt64 (min maxInt64 (t - u))

/-- The function `time.Unix(0, nsec)`. -/
def Unix0 (nsec : Int) : Int := nsec

/-- The method `time.Time.UnixNano`. -/
def UnixNano (t : Int) : Int := wrap64 t

/-! ## processor.go: failure gate -/

/-- The constant `StateClosed`. -/
def StateClosed : Int := 0

/-- The constant `StateOpen`. -/
def StateOpen : Int := 1

/-- The constant `StateHalfOpen`. -/
def StateHalfOpen : Int := 2

/-- The error values of the package. -/
inductive Error where
  /-- The variable `ErrCircuitOpen`. -/
  | ErrCircuitOpen
  /-- The error `processor %s unhealthy`. -/
  | unhealthy (processorType : String)
  /-- The error `processor returned status %d`. -/
  | status (code : Int)
  /-- The error returned by `httpClient.Do`. -/
  | transport
  /-- The error `ctx.Err()`. -/
  | ctxErr
  deriving DecidableEq, Repr

/-- The struct `CircuitBreaker`. -/
structure CircuitBreaker where
  state : Int
  failures : Int
  lastFailTime : Int
  maxFailures : Int
  timeout : Int
  deriving DecidableEq, Repr

/-- The constructor `NewCircuitBreaker`. -/
def NewCircuitBreaker (maxFailures timeout : Int) : CircuitBreaker :=
  { state := StateClosed, failures := 0, lastFailTime := 0,
    maxFailures := maxFailures, timeout := timeout }

/-- What a wrapped function is: it may change the state `α` it captures and the
world, and returns an error or nil. -/
abbrev Fn (α : Type) := α → List Effect → Option Error × α × List Effect

/-- What `Call` leaves behind: the returned error, the gate, the captured
state and the trace. -/
structure CallResult (α : Type) where
  err : Option Error
  cb : CircuitBreaker
  captured : α
  trace : List Effect

/-- Lines 67 to 80 of `Call`: run the wrapped function and account for its outcome. -/
def CircuitBreaker.attempt {α : Type} (env : Env) (cb : CircuitBreaker) (fn : Fn α)
    (a : α) (tr : List Effect) : CallResult α :=
  match fn a tr with
  | (some err, a, tr) =>
    let cb := { cb with failures := wrap32 (cb.failures + 1) }
    let (now, tr) := env.Now tr
    let cb := { cb with lastFailTime := UnixNano now }
    let cb := if cb.failures ≥ cb.maxFailures then { cb with state := StateOpen } else cb
    { err := some err, cb := cb, captured := a, trace := tr }
  | (none, a, tr) =>
    let cb := { cb with failures := 0 }
    let cb := { cb with state := StateClosed }
    { err := none, cb := cb, captured := a, trace := tr }

/-- The method `(*CircuitBreaker).Call`. -/
def CircuitBreaker.Call {α : Type} (env : Env) (cb : CircuitBreaker) (fn : Fn α)
    (a : α) (tr : List Effect) : CallResult α :=
  let state := cb.state
  if state = StateOpen then
    let (now, tr) := env.Now tr
    if Sub now (Unix0 cb.lastFailTime) > cb.timeout then
      CircuitBreaker.attempt env { cb with state := StateHalfOpen } fn a tr
    else
      { err := some Error.ErrCircuitOpen, cb := cb, captured := a, trace := tr }
  else
    CircuitBreaker.attempt env cb fn a tr

/-! ## processor.go: health check and dispatcher -/

/-- The struct `PaymentProcessor`: `cache` tells whether the field is non-nil, the
map `lastHealthCheck` is a partial function, the HTTP client and the parser are
the oracles of the environment. -/
structure PaymentProcessor where
  defaultURL : String
  fallbackURL : String
  lastHealthCheck : String → Option Int
  defaultCB : CircuitBreaker
  fallbackCB : CircuitBreaker
  cache : Bool

/-- The constructor `NewPaymentProcessor`; the argument tells whether `c` is non-nil. -/
def NewPaymentProcessor (c : Bool) : PaymentProcessor :=
  { defaultURL := "http://payment-processor-default:8080"
    fallbackURL := "http://payment-processor-fallback:8080"
    lastHealthCheck := fun _ => none
    defaultCB := NewCircuitBreaker 5 (30 * Second)
    fallbackCB := NewCircuitBreaker 5 (30 * Second)
    cache := c }

/-- Lines 188 to 215 of `isHealthy`: record the time of the check, then ask the
upstream. -/
def probeHealth (env : Env) (p : PaymentProcessor) (processorType : String)
    (tr : List Effect) : Bool × PaymentProcessor × List Effect :=
  let (now, tr) := env.Now tr
  let p := { p with lastHealthCheck :=
    fun k => if k = processorType then some now else p.lastHealthCheck k }
  let url := if processorType = "fallback" then p.fallbackURL else p.defaultURL
  let (resp, tr) := env.Get tr (url ++ "/payments/service-health") (1 * Second)
  match resp with
  | GetResponse.err => (false, p, tr)
  | GetResponse.resp status body =>
    if status ≠ 200 then (false, p, tr)
    else
      match body with
      | none => (false, p, tr)
      | some failing => (!failing, p, tr)

/-- Lines 180 to 215 of `isHealthy`: the local timestamp cache, then the probe. -/
def localHealth (env : Env) (p : PaymentProcessor) (processorType : String)
    (tr : List Effect) : Bool × PaymentProcessor × List Effect :=
  match p.lastHealthCheck processorType with
  | some lastCheck =>
    let (now, tr) := env.Now tr
    if Sub now lastCheck < 5 * Second then (true, p, tr)
    else probeHealth env p processorType tr
  | none => probeHealth env p processorType tr

/-- The method `(*PaymentProcessor).isHealthy`. -/
def isHealthy (env : Env) (p : PaymentProcessor) (processorType : String)
    (tr : List Effect) : Bool × PaymentProcessor × List Effect :=
  if p.cache then
    let key := "healthcheck:" ++ processorType
    let ((ok, _), tr) := env.SetNX tr key "1" (5 * Second)
    if !ok then (true, p, tr)
    else localHealth env p processorType tr
  else
    localHealth env p processorType tr

/-- The function `buildPaymentRequest`. -/
def buildPaymentRequest (env : Env) (payment : Payment) : String :=
  "\x7b\"correlationId\":\"" ++ payment.CorrelationID ++ "\",\"amount\":" ++
    CentsToDecimalString payment.AmountCents ++ ",\"requestedAt\":\"" ++
    env.formatRFC3339 payment.RequestedAt ++ "\"\x7d"

/-- The method `(*PaymentProcessor).tryProcessor`. -/
def tryProcessor (env : Env) (payment : Payment) (processorType : String) :
    Fn PaymentProcessor := fun p tr =>
  let url := if processorType = "fallback" then p.fallbackURL else p.defaultURL
  let (healthy, p, tr) := isHealthy env p processorType tr
  if !healthy then (some (Error.unhealthy processorType), p, tr)
  else
    let body := buildPaymentRequest env payment
    let (resp, tr) := env.Post tr (url ++ "/payments") body
    match resp with
    | PostResponse.err => (some Error.transport, p, tr)
    | PostResponse.resp status =>
      if status < 200 ∨ status ≥ 300 then (some (Error.status status), p, tr)
      else (none, p, tr)
    | PostResponse.ctxDone => (some Error.ctxErr, p, tr)

/-- What `ProcessPayment` leaves behind: the processor, the payment behind the
pointer, the ledger and the trace. -/
structure ProcessResult where
  p : PaymentProcessor
  payment : Payment
  storage : MemoryStorage
  trace : List Effect

/-- The method `(*PaymentProcessor).ProcessPayment`. -/
def ProcessPayment (env : Env) (p : PaymentProcessor) (payment : Payment)
    (storage : MemoryStorage) (tr : List Effect) : ProcessResult :=
  let r := p.defaultCB.Call env (tryProcessor env payment "default") p tr
  let p := { r.captured with defaultCB := r.cb }
  match r.err with
  | none =>
    let payment := { payment with ProcessorType := "default" }
    { p := p, payment := payment, storage := storage.StorePayment payment, trace := r.trace }
  | some _ =>
    let r := p.fallbackCB.Call env (tryProcessor env payment "fallback") p r.trace
    let p := { r.captured with fallbackCB := r.cb }
    match r.err with
    | none =>
      let payment := { payment with ProcessorType := "fallback" }
      { p := p, payment := payment, storage := storage.StorePayment payment, trace := r.trace }
    | some _ =>
      { p := p, payment := payment, storage := storage,
        trace := r.trace ++ [Effect.log payment.CorrelationID] }

/-! ## Reference definitions for the ledger and the money format -/

/-- The ledger after `StorePayment` was called with each payment of `ps` in turn,
starting from `NewMemoryStorage`. -/
def ledgerAfter (ps : List Payment) : MemoryStorage :=
  ps.foldl MemoryStorage.StorePayment NewMemoryStorage

/-- Every payment carries one of the two processor tags. -/
def WellTagged (ps : List Payment) : Prop :=
  ∀ p ∈ ps, p.ProcessorType = "default" ∨ p.ProcessorType = "fallback"

/-- Count and amount-sum of a list of payments, as `int` and `int64` hold them. -/
def countAndSum (ps : List Payment) : ProcessorSummary :=
  { TotalRequests := wrap64 ps.length
    TotalAmountCents := wrap64 (ps.map Payment.AmountCents).sum }

/-- Per-processor count and amount-sum of a list of payments. -/
def aggregate (ps : List Payment) : PaymentSummary :=
  { Default := countAndSum (ps.filter fun p => p.ProcessorType = "default")
    Fallback := countAndSum (ps.filter fun p => p.ProcessorType = "fallback") }

/-- The aggregation over the payments requested in the closed window
`from ≤ requestedAt ≤ to`. -/
def summaryClosed (ps : List Payment) (tFrom tTo : Int) : PaymentSummary :=
  aggregate (ps.filter fun p => tFrom ≤ p.RequestedAt ∧ p.RequestedAt ≤ tTo)

/-- The aggregation over the payments requested in the window that includes
`from` and excludes `to`: `from ≤ requestedAt < to`. -/
def summaryHalfOpen (ps : List Payment) (tFrom tTo : Int) : PaymentSummary :=
  aggregate (ps.filter fun p => tFrom ≤ p.RequestedAt ∧ p.RequestedAt < tTo)

/-- A number below 100 written with exactly two decimal digits. -/
def twoDigits (n : Nat) : String :=
  String.mk [Nat.digitChar (n / 10), Nat.digitChar (n % 10)]

/-- The decimal string of an amount of cents: the digits of the whole part, then,
unless the cents part is zero, a point and the cents part in two digits. -/
def decimalOfCents (cents : Nat) : String :=
  Nat.repr (cents / 100) ++
    (if cents % 100 = 0 then "" else "." ++ twoDigits (cents % 100))

/-! ## Sequential runs of the failure gate -/

/-- A wrapped function whose outcome is fixed in advance; the state it captures
counts its invocations. -/
def oracleFn (outcome : Option Error) : Fn Nat := fun n tr => (outcome, n + 1, tr)

/-- The state before the first `Call` of a run: a gate, no invocation yet, a trace. -/
def startOf (cb : CircuitBreaker) (tr : List Effect) : CallResult Nat :=
  { err := none, cb := cb, captured := 0, trace := tr }

/-- Calls made one after the other on the same gate, the i-th wrapping a function
with the i-th outcome. -/
def runCalls (env : Env) (outcomes : List (Option Error)) (r : CallResult Nat) :
    CallResult Nat :=
  outcomes.foldl (fun r o => r.cb.Call env (oracleFn o) r.captured r.trace) r

/-- The number of consecutive failures at the end of a list of outcomes that
follows `k` consecutive failures. -/
def streak (k : Nat) : List (Option Error) → Nat
  | [] => k
  | none :: os => streak 0 os
  | some _ :: os => streak (k + 1) os

/-- At every moment of a list of outcomes that follows `k` consecutive failures,
fewer than `n` consecutive failures have occurred. -/
def fewerThan (n : Nat) (k : Nat) : List (Option Error) → Prop
  | [] => k < n
  | none :: os => k < n ∧ fewerThan n 0 os
  | some _ :: os => k < n ∧ fewerThan n (k + 1) os

/-- The gates reached from the gate of `NewPaymentProcessor` by calls made one
after the other, whatever they wrap. -/
inductive GateReachable (env : Env) : CircuitBreaker → Prop where
  | fresh : GateReachable env (NewCircuitBreaker 5 (30 * Second))
  | call {α : Type} (cb : CircuitBreaker) (fn : Fn α) (a : α) (tr : List Effect) :
      GateReachable env cb → GateReachable env (cb.Call env fn a tr).cb

/-- The gate lets through a call whose clock reading is `now`. -/
def Admits (cb : CircuitBreaker) (now : Int) : Prop :=
  cb.state ≠ StateOpen ∨ Sub now (Unix0 cb.lastFailTime) > cb.timeout

/-! ## Worlds -/

/-- The upstream at `url` answers: its liveness endpoint reports that it is not
failing and its settlement endpoint returns a 2xx status before the deadline. -/
def UpstreamUp (env : Env) (url : String) : Prop :=
  (∀ tr timeout, env.get tr (url ++ "/payments/service-health") timeout =
      GetResponse.resp 200 (some false)) ∧
    ∀ tr body, ∃ status, env.post tr (url ++ "/payments") body = PostResponse.resp status ∧
      200 ≤ status ∧ status < 300

/-- A world with the given clock, in which `SetNX` always answers `nx` and only
the upstream at `upURL` answers. -/
def worldWhere (clock : List Effect → Int) (nx : Bool × Bool) (upURL : String) : Env :=
  { clock := clock
    setNX := fun _ _ _ _ => nx
    get := fun _ url _ =>
      if url = upURL ++ "/payments/service-health" then GetResponse.resp 200 (some false)
      else GetResponse.err
    post := fun _ url _ =>
      if url = upURL ++ "/payments" then PostResponse.resp 200 else PostResponse.err
    formatRFC3339 := fun _ => "1970-01-01T00:00:00Z" }

/-- The two-valued clock that reads `t` on an empty trace and 0 afterwards. -/
def clockAt (t : Int) : List Effect → Int := fun tr => if tr = [] then t else 0

/-- The upstream of `ProcessPayment` that is the only one to answer: the primary
while its gate lets the call through, or the secondary after a failed primary
attempt while its own gate lets the call through. -/
def OnlyUp (env : Env) (p : PaymentProcessor) (payment : Payment) (tr : List Effect)
    (processorType : String) : Prop :=
  (processorType = "default" ∧ UpstreamUp env p.defaultURL ∧
      Admits p.defaultCB (env.clock tr)) ∨
    (processorType = "fallback" ∧ UpstreamUp env p.fallbackURL ∧
      (p.defaultCB.Call env (tryProcessor env payment "default") p tr).err ≠ none ∧
      Admits p.fallbackCB
        (env.clock (p.defaultCB.Call env (tryProcessor env payment "default") p tr).trace))

/-- The URL that `tryProcessor` and `isHealthy` choose for a processor type. -/
def urlOf (p : PaymentProcessor) (processorType : String) : String :=
  if processorType = "fallback" then p.fallbackURL else p.defaultURL

/-- The interaction is a clock reading or belongs to the upstream of the given
processor type: its marker in the coordination store, its liveness request or
its settlement request. -/
def Effect.concerns (url processorType : String) : Effect → Prop
  | Effect.now => True
  | Effect.setNX key _ _ => key = "healthcheck:" ++ processorType
  | Effect.get u _ => u = url ++ "/payments/service-health"
  | Effect.post u _ => u = url ++ "/payments"
  | Effect.log _ => False

/-- The trace `tr2` continues `tr1` with interactions that all satisfy `Q`. -/
def Extends (Q : Effect → Prop) (tr1 tr2 : List Effect) : Prop :=
  ∃ added, tr2 = tr1 ++ added ∧ ∀ e ∈ added, Q e

/-! # Theorems -/

/-! ## Money formatting -/

theorem fmtInt_natCast (k : Nat) : fmtInt (k : Int) = Nat.repr k := by
  unfold fmtInt
  have h : ¬ ((k : Int) < 0) := by omega
  rw [if_neg h, Int.toNat_natCast]

theorem fraction_digits :
    ∀ m : Fin 100, (m : Nat) ≠ 0 →
      (if ((m : Nat) : Int) < 10 then "." ++ "0" else ".") ++ Nat.repr m = "." ++ twoDigits m := by
  decide

theorem centsToDecimalString_natCast (n : Nat) :
    CentsToDecimalString (n : Int) = decimalOfCents n := by
  have hd : Int.tdiv (n : Int) 100 = ((n / 100 : Nat) : Int) := rfl
  have hm : Int.tmod (n : Int) 100 = ((n % 100 : Nat) : Int) := rfl
  have hneg : ¬ ((n : Int) < 0) := by omega
  unfold CentsToDecimalString decimalOfCents
  simp only [hd, hm, fmtInt_natCast, if_neg hneg, String.empty_append]
  by_cases h0 : n % 100 = 0
  · simp [h0]
  · have hlt : n % 100 < 100 := Nat.mod_lt _ (by decide)
    have key := fraction_digits ⟨n % 100, hlt⟩ h0
    simp only at key
    have hz : ¬ (((n % 100 : Nat) : Int) = 0) := by omega
    rw [if_neg hz, if_neg h0]
    by_cases h10 : ((n % 100 : Nat) : Int) < 10
    · rw [if_pos h10] at key ⊢
      rw [String.append_assoc, String.append_assoc, ← String.append_assoc "." "0", key]
    · rw [if_neg h10] at key ⊢
      rw [String.append_assoc, key]

theorem digitChar_ne_zero (d : Nat) (h0 : d ≠ 0) (h : d < 10) : Nat.digitChar d ≠ '0' := by
  interval_cases d <;> first | exact absurd rfl h0 | decide

theorem toDigitsCore_head (fuel : Nat) : ∀ (n : Nat) (ds : List Char), 0 < n → n < fuel →
    ∃ c, (Nat.toDigitsCore 10 fuel n ds).head? = some c ∧ c ≠ '0' := by
  induction fuel with
  | zero => intro n ds _ h; omega
  | succ f ih =>
    intro n ds hn hf
    unfold Nat.toDigitsCore
    simp only
    by_cases h : n / 10 = 0
    · rw [if_pos h]
      have hlt : n < 10 := by omega
      have hmod : n % 10 = n := Nat.mod_eq_of_lt hlt
      rw [hmod]
      exact ⟨Nat.digitChar n, rfl, digitChar_ne_zero n (by omega) hlt⟩
    · rw [if_neg h]
      exact ih (n / 10) _ (by omega) (by omega)

theorem decimalOfCents_head (n : Nat) (hn : 100 ≤ n) :
    ∃ c, (decimalOfCents n).data.head? = some c ∧ c ≠ '0' := by
  obtain ⟨c, hc, hne⟩ := toDigitsCore_head (n / 100 + 1) (n / 100) [] (by omega) (by omega)
  refine ⟨c, ?_, hne⟩
  unfold decimalOfCents Nat.repr Nat.toDigits
  rw [String.data_append]
  simp only [List.asString]
  rw [List.head?_append, hc]
  rfl

/-- C7: for every non-negative amount of cents, `CentsToDecimalString` yields the
decimal digits of `cents / 100` (without a leading zero when that is not zero),
followed, only when `cents % 100` is non-zero, by a point and `cents % 100` in
exactly two digits; so 0, 150, 5, 100 and 1990 give `0`, `1.50`, `0.05`, `1` and
`19.90`. -/
theorem centsToDecimalString_nonneg (cents : Int) (h : 0 ≤ cents) :
    CentsToDecimalString cents = decimalOfCents cents.toNat ∧
      (100 ≤ cents → ∃ c, (CentsToDecimalString cents).data.head? = some c ∧ c ≠ '0') ∧
      CentsToDecimalString 0 = "0" ∧ CentsToDecimalString 150 = "1.50" ∧
      CentsToDecimalString 5 = "0.05" ∧ CentsToDecimalString 100 = "1" ∧
      CentsToDecimalString 1990 = "19.90" := by
  obtain ⟨n, rfl⟩ := Int.eq_ofNat_of_zero_le h
  rw [Int.toNat_natCast, centsToDecimalString_natCast n]
  refine ⟨rfl, ?_, by decide, by decide, by decide, by decide, by decide⟩
  intro h100
  exact decimalOfCents_head n (by omega)

theorem centsToDecimalString_nonneg_witness :
    (0 : Int) ≤ 1234567 ∧ CentsToDecimalString 1234567 = "12345.67" :=
  ⟨by decide, (centsToDecimalString_nonneg 1234567 (by decide)).1.trans (by decide)⟩

/-- C8: at the negative amount -150 `CentsToDecimalString` returns `-.0-50`: the
whole part is replaced by the sign and the fractional digits carry a sign of
their own, whereas the sign followed by the string of 150 is `-1.50`. -/
theorem centsToDecimalString_neg150 :
    CentsToDecimalString (-150) = "-.0-50" ∧
      "-" ++ CentsToDecimalString 150 = "-1.50" ∧
      CentsToDecimalString (-100) = "-" ∧
      CentsToDecimalString (-150) ≠ "-" ++ CentsToDecimalString 150 := by
  decide

/-! ## Ledger -/

theorem wrap64_add_left (x y : Int) : wrap64 (wrap64 x + y) = wrap64 (x + y) := by
  unfold wrap64
  omega

theorem storePayment_payments (s : MemoryStorage) (p : Payment) :
    (s.StorePayment p).payments = s.payments ++ [p] := by
  unfold MemoryStorage.StorePayment
  split <;> rfl

theorem storePayment_summaries (s : MemoryStorage) (p : Payment) :
    ((s.StorePayment p).defaultSummary, (s.StorePayment p).fallbackSummary) =
      scanStep none none (s.defaultSummary, s.fallbackSummary) p := by
  unfold MemoryStorage.StorePayment scanStep
  by_cases h : p.ProcessorType = "default" <;> simp [h]

theorem foldl_storePayment (ps : List Payment) (s : MemoryStorage) :
    (ps.foldl MemoryStorage.StorePayment s).payments = s.payments ++ ps ∧
      ((ps.foldl MemoryStorage.StorePayment s).defaultSummary,
        (ps.foldl MemoryStorage.StorePayment s).fallbackSummary) =
        ps.foldl (scanStep none none) (s.defaultSummary, s.fallbackSummary) := by
  induction ps generalizing s with
  | nil => simp
  | cons p ps ih =>
    simp only [List.foldl_cons]
    obtain ⟨h1, h2⟩ := ih (s.StorePayment p)
    refine ⟨?_, ?_⟩
    · rw [h1, storePayment_payments]; simp
    · rw [h2, storePayment_summaries]

theorem scanStep_of_bounds (tFrom tTo : Option Int) (p : Payment)
    (hf : ∀ f, tFrom = some f → f ≤ p.RequestedAt)
    (ht : ∀ t, tTo = some t → p.RequestedAt ≤ t)
    (acc : ProcessorSummary × ProcessorSummary) :
    scanStep tFrom tTo acc p = scanStep none none acc p := by
  cases tFrom with
  | none =>
    cases tTo with
    | none => rfl
    | some t =>
      have h2 : After p.RequestedAt t = false := by
        have := ht t rfl
        simp only [After, decide_eq_false_iff_not]; omega
      simp [scanStep, h2]
  | some f =>
    have h1 : Before p.RequestedAt f = false := by
      have := hf f rfl
      simp only [Before, decide_eq_false_iff_not]; omega
    cases tTo with
    | none => simp [scanStep, h1]
    | some t =>
      have h2 : After p.RequestedAt t = false := by
        have := ht t rfl
        simp only [After, decide_eq_false_iff_not]; omega
      simp [scanStep, h1, h2]

theorem scan_of_bounds (tFrom tTo : Option Int) (ps : List Payment)
    (hf : ∀ f, tFrom = some f → ∀ p ∈ ps, f ≤ p.RequestedAt)
    (ht : ∀ t, tTo = some t → ∀ p ∈ ps, p.RequestedAt ≤ t)
    (acc : ProcessorSummary × ProcessorSummary) :
    ps.foldl (scanStep tFrom tTo) acc = ps.foldl (scanStep none none) acc := by
  induction ps generalizing acc with
  | nil => rfl
  | cons p ps ih =>
    simp only [List.foldl_cons]
    rw [scanStep_of_bounds tFrom tTo p (fun f hF => hf f hF p (List.mem_cons_self _ _))
      (fun t hT => ht t hT p (List.mem_cons_self _ _))]
    exact ih (fun f hF q hq => hf f hF q (List.mem_cons_of_mem _ hq))
      (fun t hT q hq => ht t hT q (List.mem_cons_of_mem _ hq)) _

theorem scan_filter (f t : Int) (ps : List Payment)
    (acc : ProcessorSummary × ProcessorSummary) :
    ps.foldl (scanStep (some f) (some t)) acc =
      (ps.filter fun p => f ≤ p.RequestedAt ∧ p.RequestedAt ≤ t).foldl
        (scanStep none none) acc := by
  induction ps generalizing acc with
  | nil => rfl
  | cons p ps ih =>
    simp only [List.foldl_cons]
    by_cases hin : f ≤ p.RequestedAt ∧ p.RequestedAt ≤ t
    · have hstep : scanStep (some f) (some t) acc p = scanStep none none acc p := by
        unfold scanStep
        have h1 : Before p.RequestedAt f = false := by
          simp only [Before, decide_eq_false_iff_not]; omega
        have h2 : After p.RequestedAt t = false := by
          simp only [After, decide_eq_false_iff_not]; omega
        simp only [h1, h2]
      rw [hstep, ih, List.filter_cons_of_pos (by simpa using hin), List.foldl_cons]
    · have hstep : scanStep (some f) (some t) acc p = acc := by
        unfold scanStep
        by_cases hb : p.RequestedAt < f
        · have h1 : Before p.RequestedAt f = true := by simp [Before, hb]
          simp [h1]
        · have h1 : Before p.RequestedAt f = false := by simp [Before, hb]
          have h2 : After p.RequestedAt t = true := by
            simp only [After, decide_eq_true_eq]; omega
          simp [h1, h2]
      rw [hstep, ih, List.filter_cons_of_neg (by simpa using hin)]

theorem scan_aggregate (ps : List Payment) (hw : WellTagged ps) :
    ps.foldl (scanStep none none) (⟨0, 0⟩, ⟨0, 0⟩) =
      ((aggregate ps).Default, (aggregate ps).Fallback) := by
  induction ps using List.reverseRecOn with
  | nil => rfl
  | append_singleton qs p ih =>
    have hq : WellTagged qs := fun q hq => hw q (List.mem_append_left _ hq)
    rw [List.foldl_append, ih hq]
    simp only [List.foldl_cons, List.foldl_nil]
    unfold scanStep aggregate countAndSum ProcessorSummary.add
    rcases hw p (by simp) with hp | hp
    · simp [hp, List.filter_append, wrap64_add_left]
    · simp [hp, List.filter_append, wrap64_add_left]

/-- C1: after any sequence of `StorePayment` calls on a new ledger, the running
aggregates returned by `GetSummary(nil, nil)` equal the full scan `GetSummary(from, to)`
for all bounds that every stored `requestedAt` satisfies, and (the tags being the
two processor names) they are the per-processor count and amount-sum of the
stored history, as `int` and `int64` hold them. -/
theorem getSummary_running_eq_scan (ps : List Payment) (tFrom tTo : Option Int)
    (hf : ∀ f, tFrom = some f → ∀ p ∈ (ledgerAfter ps).payments, f ≤ p.RequestedAt)
    (ht : ∀ t, tTo = some t → ∀ p ∈ (ledgerAfter ps).payments, p.RequestedAt ≤ t) :
    (ledgerAfter ps).payments = ps ∧
      (ledgerAfter ps).GetSummary none none = (ledgerAfter ps).GetSummary tFrom tTo ∧
      (WellTagged ps → (ledgerAfter ps).GetSummary none none = aggregate ps) := by
  obtain ⟨h1, h2⟩ := foldl_storePayment ps NewMemoryStorage
  have hp : (ledgerAfter ps).payments = ps := by
    unfold ledgerAfter
    rw [h1]
    rfl
  have hs : ((ledgerAfter ps).defaultSummary, (ledgerAfter ps).fallbackSummary) =
      ps.foldl (scanStep none none) (⟨0, 0⟩, ⟨0, 0⟩) := h2
  have hd : (ledgerAfter ps).defaultSummary =
      (ps.foldl (scanStep none none) (⟨0, 0⟩, ⟨0, 0⟩)).1 := by rw [← hs]
  have hfb : (ledgerAfter ps).fallbackSummary =
      (ps.foldl (scanStep none none) (⟨0, 0⟩, ⟨0, 0⟩)).2 := by rw [← hs]
  have hnone : (ledgerAfter ps).GetSummary none none =
      { Default := (ps.foldl (scanStep none none) (⟨0, 0⟩, ⟨0, 0⟩)).1
        Fallback := (ps.foldl (scanStep none none) (⟨0, 0⟩, ⟨0, 0⟩)).2 } := by
    simp only [MemoryStorage.GetSummary, hd, hfb]
  rw [hp] at hf ht
  have hscan := scan_of_bounds tFrom tTo ps hf ht (⟨0, 0⟩, ⟨0, 0⟩)
  refine ⟨hp, ?_, ?_⟩
  · rw [hnone]
    cases tFrom with
    | none =>
      cases tTo with
      | none => rw [← hnone]
      | some t => simp only [MemoryStorage.GetSummary, hp, hscan]
    | some f =>
      cases tTo <;> simp only [MemoryStorage.GetSummary, hp, hscan]
  · intro hw
    rw [hnone, scan_aggregate ps hw]

theorem getSummary_running_eq_scan_witness :
    (ledgerAfter [⟨"a", 1990, 5, "default"⟩, ⟨"b", 250, 7, "fallback"⟩]).GetSummary none none =
      (ledgerAfter [⟨"a", 1990, 5, "default"⟩, ⟨"b", 250, 7, "fallback"⟩]).GetSummary
        (some 5) (some 7) :=
  (getSummary_running_eq_scan [⟨"a", 1990, 5, "default"⟩, ⟨"b", 250, 7, "fallback"⟩]
    (some 5) (some 7) (by decide) (by decide)).2.1

/-- C6, counterexample: with one stored payment requested exactly at `to`, the
summary of `GetSummary(from, to)` counts it, while the aggregation over the
window that excludes `to` does not. -/
theorem getSummary_counts_upper_bound :
    (ledgerAfter [⟨"abc", 1990, 10, "default"⟩]).GetSummary (some 0) (some 10) =
        { Default := ⟨1, 1990⟩, Fallback := ⟨0, 0⟩ } ∧
      summaryHalfOpen (ledgerAfter [⟨"abc", 1990, 10, "default"⟩]).payments 0 10 =
        { Default := ⟨0, 0⟩, Fallback := ⟨0, 0⟩ } ∧
      (ledgerAfter [⟨"abc", 1990, 10, "default"⟩]).GetSummary (some 0) (some 10) ≠
        summaryHalfOpen (ledgerAfter [⟨"abc", 1990, 10, "default"⟩]).payments 0 10 := by
  decide

/-- C6, amended: for every ledger whose payments carry the two processor names and
every pair of bounds, `GetSummary(from, to)` is the per-processor count and
amount-sum over exactly the stored payments with `from ≤ requestedAt ≤ to`, both
bounds included. -/
theorem getSummary_closed_window (s : MemoryStorage) (tFrom tTo : Int)
    (hw : WellTagged s.payments) :
    s.GetSummary (some tFrom) (some tTo) = summaryClosed s.payments tFrom tTo := by
  have hw2 : WellTagged
      (s.payments.filter fun p => tFrom ≤ p.RequestedAt ∧ p.RequestedAt ≤ tTo) :=
    fun p hp => hw p (List.mem_of_mem_filter hp)
  simp only [MemoryStorage.GetSummary, summaryClosed, scan_filter, scan_aggregate _ hw2]

theorem getSummary_closed_window_witness :
    (ledgerAfter [⟨"abc", 1990, 10, "default"⟩]).GetSummary (some 10) (some 10) =
      summaryClosed (ledgerAfter [⟨"abc", 1990, 10, "default"⟩]).payments 10 10 :=
  getSummary_closed_window (ledgerAfter [⟨"abc", 1990, 10, "default"⟩]) 10 10 (by
    unfold WellTagged
    decide)

/-! ## Failure gate -/

theorem sub_gt_iff (x u T : Int) (h1 : minInt64 ≤ T) (h2 : T < maxInt64) :
    Sub x u > T ↔ x - u > T := by
  unfold Sub
  unfold minInt64 at *
  unfold maxInt64 at *
  omega

theorem sub_gt_thirty (x u : Int) : Sub x u > 30 * Second ↔ x - u > 30 * Second := by
  apply sub_gt_iff <;> simp [minInt64, maxInt64, Second]

theorem fewerThan_lt (n k : Nat) (os : List (Option Error)) (h : fewerThan n k os) : k < n := by
  cases os with
  | nil => exact h
  | cons o os =>
    cases o with
    | none => exact h.1
    | some e => exact h.1

theorem call_closed_success (env : Env) (cb : CircuitBreaker) (n : Nat) (tr : List Effect)
    (hs : cb.state = StateClosed) :
    cb.Call env (oracleFn none) n tr =
      { err := none, cb := { cb with failures := 0, state := StateClosed },
        captured := n + 1, trace := tr } := by
  simp [CircuitBreaker.Call, CircuitBreaker.attempt, oracleFn, hs, StateClosed, StateOpen]

theorem call_closed_failure (env : Env) (cb : CircuitBreaker) (e : Error) (n : Nat)
    (tr : List Effect) (hs : cb.state = StateClosed) :
    cb.Call env (oracleFn (some e)) n tr =
      { err := some e
        cb := if wrap32 (cb.failures + 1) ≥ cb.maxFailures then
            { cb with failures := wrap32 (cb.failures + 1),
                      lastFailTime := UnixNano (env.clock tr), state := StateOpen }
          else
            { cb with failures := wrap32 (cb.failures + 1),
                      lastFailTime := UnixNano (env.clock tr) }
        captured := n + 1, trace := tr ++ [Effect.now] } := by
  simp [CircuitBreaker.Call, CircuitBreaker.attempt, oracleFn, hs, StateClosed, StateOpen,
    Env.Now]

theorem call_open_rejects {α : Type} (env : Env) (cb : CircuitBreaker) (fn : Fn α) (a : α)
    (tr : List Effect) (hs : cb.state = StateOpen)
    (hc : ¬ (Sub (env.clock tr) (Unix0 cb.lastFailTime) > cb.timeout)) :
    cb.Call env fn a tr =
      { err := some Error.ErrCircuitOpen, cb := cb, captured := a,
        trace := tr ++ [Effect.now] } := by
  simp only [CircuitBreaker.Call, hs, if_true, Env.Now, if_neg hc]

theorem runCalls_fewer (env : Env) (outs : List (Option Error)) (k : Nat)
    (r : CallResult Nat) (hs : r.cb.state = StateClosed) (hf : r.cb.failures = k)
    (hm : r.cb.maxFailures = 5) (ht : r.cb.timeout = 30 * Second)
    (h : fewerThan 5 k outs) :
    (runCalls env outs r).cb.state = StateClosed ∧
      (runCalls env outs r).cb.failures = streak k outs ∧
      (runCalls env outs r).cb.maxFailures = 5 ∧
      (runCalls env outs r).cb.timeout = 30 * Second ∧
      (runCalls env outs r).captured = r.captured + outs.length := by
  induction outs generalizing k r with
  | nil => exact ⟨hs, hf, hm, ht, rfl⟩
  | cons o os ih =>
    cases o with
    | none =>
      have hstep := call_closed_success env r.cb r.captured r.trace hs
      have := ih 0 (r.cb.Call env (oracleFn none) r.captured r.trace)
        (by rw [hstep]) (by rw [hstep]; rfl) (by rw [hstep]; exact hm)
        (by rw [hstep]; exact ht) h.2
      rw [hstep] at this
      simp only [runCalls, List.foldl_cons, hstep, streak, List.length_cons]
      simp only [runCalls] at this
      refine ⟨this.1, this.2.1, this.2.2.1, this.2.2.2.1, ?_⟩
      rw [this.2.2.2.2]
      omega
    | some e =>
      have hk : k + 1 < 5 := fewerThan_lt 5 (k + 1) os h.2
      have hw : wrap32 (r.cb.failures + 1) = ((k + 1 : Nat) : Int) := by
        rw [hf]
        unfold wrap32
        omega
      have hlt : ¬ (wrap32 (r.cb.failures + 1) ≥ r.cb.maxFailures) := by
        rw [hw, hm]
        omega
      have hstep := call_closed_failure env r.cb e r.captured r.trace hs
      rw [if_neg hlt] at hstep
      have := ih (k + 1) (r.cb.Call env (oracleFn (some e)) r.captured r.trace)
        (by rw [hstep]; exact hs) (by rw [hstep]; exact hw) (by rw [hstep]; exact hm)
        (by rw [hstep]; exact ht) h.2
      rw [hstep] at this
      simp only [runCalls, List.foldl_cons, hstep, streak, List.length_cons]
      simp only [runCalls] at this
      refine ⟨this.1, this.2.1, this.2.2.1, this.2.2.2.1, ?_⟩
      rw [this.2.2.2.2]
      omega

/-- C4: from the gate of `NewPaymentProcessor` (Closed, threshold 5, cooldown 30s),
calls made one after the other: while fewer than 5 consecutive failures have
occurred every call has invoked the wrapped function and the gate is Closed; the
5th consecutive failure leaves the gate Open, and then every call whose clock
reading is less than 30s after `lastFailTime` returns `ErrCircuitOpen` without
invoking the wrapped function and leaves the gate as it was. -/
theorem gate_opens_after_five (env : Env) (outs : List (Option Error)) (e : Error)
    (tr0 : List Effect) (h : fewerThan 5 0 outs) :
    ((runCalls env outs (startOf (NewCircuitBreaker 5 (30 * Second)) tr0)).cb.state =
        StateClosed ∧
      (runCalls env outs (startOf (NewCircuitBreaker 5 (30 * Second)) tr0)).captured =
        outs.length ∧
      (runCalls env outs (startOf (NewCircuitBreaker 5 (30 * Second)) tr0)).cb.failures =
        streak 0 outs) ∧
    (streak 0 outs = 4 →
      ∀ r5, r5 = (runCalls env (outs ++ [some e])
          (startOf (NewCircuitBreaker 5 (30 * Second)) tr0)) →
        r5.cb.state = StateOpen ∧ r5.captured = outs.length + 1 ∧ r5.cb.failures = 5 ∧
        r5.cb.lastFailTime = UnixNano (env.clock
          (runCalls env outs (startOf (NewCircuitBreaker 5 (30 * Second)) tr0)).trace) ∧
        ∀ (α : Type) (fn : Fn α) (a : α) (tr : List Effect),
          env.clock tr - r5.cb.lastFailTime < 30 * Second →
          r5.cb.Call env fn a tr =
            { err := some Error.ErrCircuitOpen, cb := r5.cb, captured := a,
              trace := tr ++ [Effect.now] }) := by
  obtain ⟨h1, h2, h3, h4, h5⟩ := runCalls_fewer env outs 0
    (startOf (NewCircuitBreaker 5 (30 * Second)) tr0) rfl rfl rfl rfl h
  have hcap : (runCalls env outs (startOf (NewCircuitBreaker 5 (30 * Second)) tr0)).captured =
      outs.length := by
    rw [h5]
    simp [startOf]
  refine ⟨⟨h1, hcap, h2⟩, ?_⟩
  intro h4s r5 hr5
  have hstep := call_closed_failure env
    (runCalls env outs (startOf (NewCircuitBreaker 5 (30 * Second)) tr0)).cb e
    (runCalls env outs (startOf (NewCircuitBreaker 5 (30 * Second)) tr0)).captured
    (runCalls env outs (startOf (NewCircuitBreaker 5 (30 * Second)) tr0)).trace h1
  have hw : wrap32 ((runCalls env outs
      (startOf (NewCircuitBreaker 5 (30 * Second)) tr0)).cb.failures + 1) = 5 := by
    rw [h2, h4s]
    decide
  have hge : wrap32 ((runCalls env outs
      (startOf (NewCircuitBreaker 5 (30 * Second)) tr0)).cb.failures + 1) ≥
      (runCalls env outs (startOf (NewCircuitBreaker 5 (30 * Second)) tr0)).cb.maxFailures := by
    rw [hw, h3]
  rw [if_pos hge, hw] at hstep
  have hrun : r5 = (runCalls env outs (startOf (NewCircuitBreaker 5 (30 * Second)) tr0)).cb.Call
      env (oracleFn (some e))
      (runCalls env outs (startOf (NewCircuitBreaker 5 (30 * Second)) tr0)).captured
      (runCalls env outs (startOf (NewCircuitBreaker 5 (30 * Second)) tr0)).trace := by
    rw [hr5]
    simp [runCalls, List.foldl_append]
  rw [hstep] at hrun
  subst hrun
  refine ⟨rfl, by simp [hcap], rfl, rfl, ?_⟩
  intro α fn a tr hlt
  apply call_open_rejects
  · rfl
  · show ¬ (Sub (env.clock tr) _ > _)
    rw [h4, sub_gt_thirty]
    dsimp only [Unix0] at hlt ⊢
    omega

theorem gate_opens_after_five_witness :
    fewerThan 5 0 [some Error.transport, none, some Error.transport, some Error.transport,
        some Error.transport, some Error.transport] ∧
      (runCalls (worldWhere (clockAt 0) (true, false) "")
        ([some Error.transport, none, some Error.transport, some Error.transport,
          some Error.transport, some Error.transport] ++ [some Error.transport])
        (startOf (NewCircuitBreaker 5 (30 * Second)) [])).cb.state = StateOpen :=
  ⟨by simp [fewerThan],
    ((gate_opens_after_five (worldWhere (clockAt 0) (true, false) "")
      [some Error.transport, none, some Error.transport, some Error.transport,
        some Error.transport, some Error.transport] Error.transport []
      (by simp [fewerThan])).2 rfl _ rfl).1⟩

theorem attempt_eq {α : Type} (env : Env) (cb : CircuitBreaker) (fn : Fn α) (a : α)
    (tr : List Effect) :
    CircuitBreaker.attempt env cb fn a tr =
      match fn a tr with
      | (some e, a1, tr1) =>
        { err := some e
          cb := if wrap32 (cb.failures + 1) ≥ cb.maxFailures then
              { cb with failures := wrap32 (cb.failures + 1),
                        lastFailTime := UnixNano (env.clock tr1), state := StateOpen }
            else
              { cb with failures := wrap32 (cb.failures + 1),
                        lastFailTime := UnixNano (env.clock tr1) }
          captured := a1, trace := tr1 ++ [Effect.now] }
      | (none, a1, tr1) =>
        { err := none, cb := { cb with failures := 0, state := StateClosed },
          captured := a1, trace := tr1 } := by
  unfold CircuitBreaker.attempt
  rcases hfn : fn a tr with ⟨_ | e, a1, tr1⟩
  · rfl
  · simp only [Env.Now]

theorem closed_ne_open : StateClosed ≠ StateOpen := by decide

theorem halfOpen_ne_open : StateHalfOpen ≠ StateOpen := by decide

theorem call_open_passes {α : Type} (env : Env) (cb : CircuitBreaker) (fn : Fn α) (a : α)
    (tr : List Effect) (hs : cb.state = StateOpen)
    (hc : Sub (env.clock tr) (Unix0 cb.lastFailTime) > cb.timeout) :
    cb.Call env fn a tr =
      CircuitBreaker.attempt env { cb with state := StateHalfOpen } fn a
        (tr ++ [Effect.now]) := by
  simp only [CircuitBreaker.Call, hs, if_true, Env.Now, if_pos hc]

theorem call_not_open {α : Type} (env : Env) (cb : CircuitBreaker) (fn : Fn α) (a : α)
    (tr : List Effect) (hs : cb.state ≠ StateOpen) :
    cb.Call env fn a tr = CircuitBreaker.attempt env cb fn a tr := by
  simp only [CircuitBreaker.Call, if_neg hs]

theorem attempt_inv {α : Type} (env : Env) (cb : CircuitBreaker) (fn : Fn α) (a : α)
    (tr : List Effect) (hm : cb.maxFailures = 5) (ht : cb.timeout = 30 * Second)
    (hs : cb.state ≠ StateOpen) :
    (CircuitBreaker.attempt env cb fn a tr).cb.maxFailures = 5 ∧
      (CircuitBreaker.attempt env cb fn a tr).cb.timeout = 30 * Second ∧
      -2147483648 ≤ (CircuitBreaker.attempt env cb fn a tr).cb.failures ∧
      (CircuitBreaker.attempt env cb fn a tr).cb.failures ≤ 2147483647 ∧
      ((CircuitBreaker.attempt env cb fn a tr).cb.state = StateOpen →
        5 ≤ (CircuitBreaker.attempt env cb fn a tr).cb.failures) := by
  rw [attempt_eq]
  have hw1 : -2147483648 ≤ wrap32 (cb.failures + 1) := by unfold wrap32; omega
  have hw2 : wrap32 (cb.failures + 1) ≤ 2147483647 := by unfold wrap32; omega
  rcases hfn : fn a tr with ⟨_ | e, a1, tr1⟩
  · exact ⟨hm, ht, by simp, by simp, fun h => absurd h closed_ne_open⟩
  · by_cases hge : wrap32 (cb.failures + 1) ≥ cb.maxFailures
    · simp only [if_pos hge]
      refine ⟨hm, ht, hw1, hw2, fun _ => ?_⟩
      rw [hm] at hge
      exact hge
    · simp only [if_neg hge]
      exact ⟨hm, ht, hw1, hw2, fun h => absurd h hs⟩

theorem gateReachable_inv (env : Env) (cb : CircuitBreaker) (h : GateReachable env cb) :
    cb.maxFailures = 5 ∧ cb.timeout = 30 * Second ∧ -2147483648 ≤ cb.failures ∧
      cb.failures ≤ 2147483647 ∧ (cb.state = StateOpen → 5 ≤ cb.failures) := by
  induction h with
  | fresh => exact ⟨rfl, rfl, by decide, by decide, fun h => absurd h closed_ne_open⟩
  | call cb fn a tr _ ih =>
    obtain ⟨hm, ht, h1, h2, h3⟩ := ih
    by_cases hs : cb.state = StateOpen
    · by_cases hc : Sub (env.clock tr) (Unix0 cb.lastFailTime) > cb.timeout
      · rw [call_open_passes env cb fn a tr hs hc]
        exact attempt_inv env _ fn a _ hm ht halfOpen_ne_open
      · rw [call_open_rejects env cb fn a tr hs hc]
        exact ⟨hm, ht, h1, h2, h3⟩
    · rw [call_not_open env cb fn a tr hs]
      exact attempt_inv env cb fn a tr hm ht hs

theorem reachable_open_five (t : Int) :
    GateReachable (worldWhere (clockAt t) (true, false) "")
      { state := StateOpen, failures := 5, lastFailTime := 0, maxFailures := 5,
        timeout := 30 * Second } := by
  have h0 : GateReachable (worldWhere (clockAt t) (true, false) "")
      (NewCircuitBreaker 5 (30 * Second)) := GateReachable.fresh
  have h1 := GateReachable.call _ (oracleFn (some Error.transport)) 0 [Effect.now] h0
  have h2 := GateReachable.call _ (oracleFn (some Error.transport)) 0 [Effect.now] h1
  have h3 := GateReachable.call _ (oracleFn (some Error.transport)) 0 [Effect.now] h2
  have h4 := GateReachable.call _ (oracleFn (some Error.transport)) 0 [Effect.now] h3
  have h5 := GateReachable.call _ (oracleFn (some Error.transport)) 0 [Effect.now] h4
  exact h5

theorem reachable_open_any (t : Int) (ht : t > 30 * Second) (n : Nat) (h5 : 5 ≤ n)
    (hn : n ≤ 2147483647) :
    GateReachable (worldWhere (clockAt t) (true, false) "")
      { state := StateOpen, failures := (n : Int), lastFailTime := 0, maxFailures := 5,
        timeout := 30 * Second } := by
  induction n, h5 using Nat.le_induction with
  | base => exact reachable_open_five t
  | succ m hm ih =>
    have hprev := ih (by omega)
    have hstep := GateReachable.call _ (oracleFn (some Error.transport)) 0 [] hprev
    have hc : Sub ((worldWhere (clockAt t) (true, false) "").clock [])
        (Unix0 (0 : Int)) > 30 * Second := by
      rw [sub_gt_thirty]
      simp only [worldWhere, clockAt, Unix0, if_true]
      omega
    rw [call_open_passes (worldWhere (clockAt t) (true, false) "")
      { state := StateOpen, failures := (m : Int), lastFailTime := 0, maxFailures := 5,
        timeout := 30 * Second } (oracleFn (some Error.transport)) 0 [] rfl hc,
      attempt_eq] at hstep
    have hw : wrap32 ((m : Int) + 1) = ((m + 1 : Nat) : Int) := by
      unfold wrap32
      omega
    have hge : ((m + 1 : Nat) : Int) ≥ 5 := by omega
    simp only [oracleFn, hw, if_pos hge] at hstep
    exact hstep

/-- C5, counterexample: a reachable Open gate called exactly 30s after
`lastFailTime` rejects the call without invoking the wrapped function; and a
reachable Open gate whose counter holds the largest `int32`, called after the
cooldown, invokes the wrapped function and, when it fails, ends HalfOpen. -/
theorem halfOpen_trial_fails_at_edges :
    (GateReachable (worldWhere (clockAt (30 * Second)) (true, false) "")
        { state := StateOpen, failures := 5, lastFailTime := 0, maxFailures := 5,
          timeout := 30 * Second } ∧
      (worldWhere (clockAt (30 * Second)) (true, false) "").clock [] - 0 = 30 * Second ∧
      (CircuitBreaker.Call (worldWhere (clockAt (30 * Second)) (true, false) "")
        { state := StateOpen, failures := 5, lastFailTime := 0, maxFailures := 5,
          timeout := 30 * Second } (oracleFn none) 0 []).err = some Error.ErrCircuitOpen ∧
      (CircuitBreaker.Call (worldWhere (clockAt (30 * Second)) (true, false) "")
        { state := StateOpen, failures := 5, lastFailTime := 0, maxFailures := 5,
          timeout := 30 * Second } (oracleFn none) 0 []).captured = 0 ∧
      (CircuitBreaker.Call (worldWhere (clockAt (30 * Second)) (true, false) "")
        { state := StateOpen, failures := 5, lastFailTime := 0, maxFailures := 5,
          timeout := 30 * Second } (oracleFn none) 0 []).cb.state = StateOpen) ∧
    (GateReachable (worldWhere (clockAt (31 * Second)) (true, false) "")
        { state := StateOpen, failures := 2147483647, lastFailTime := 0, maxFailures := 5,
          timeout := 30 * Second } ∧
      (worldWhere (clockAt (31 * Second)) (true, false) "").clock [] - 0 > 30 * Second ∧
      (CircuitBreaker.Call (worldWhere (clockAt (31 * Second)) (true, false) "")
        { state := StateOpen, failures := 2147483647, lastFailTime := 0, maxFailures := 5,
          timeout := 30 * Second } (oracleFn (some Error.transport)) 0 []).captured = 1 ∧
      (CircuitBreaker.Call (worldWhere (clockAt (31 * Second)) (true, false) "")
        { state := StateOpen, failures := 2147483647, lastFailTime := 0, maxFailures := 5,
          timeout := 30 * Second } (oracleFn (some Error.transport)) 0 []).cb.state =
        StateHalfOpen) := by
  refine ⟨⟨reachable_open_five _, by decide, by decide, by decide, by decide⟩,
    ⟨?_, by decide, by decide, by decide⟩⟩
  exact reachable_open_any (31 * Second) (by decide) 2147483647 (by decide) (by decide)

/-- C5, amended: for every gate reachable from the gate of `NewPaymentProcessor`
that is Open, whose counter is below the largest `int32`, and that is called
more than 30s after `lastFailTime`, the call invokes the wrapped function exactly
once; if it fails the gate ends Open with one more failure and `lastFailTime` set
to the clock reading taken after the failure, and if it succeeds the gate ends
Closed with `failures = 0`. -/
theorem halfOpen_trial {α : Type} (env : Env) (cb : CircuitBreaker)
    (hr : GateReachable env cb) (ho : cb.state = StateOpen) (fn : Fn α) (a : α)
    (tr : List Effect) (hc : env.clock tr - cb.lastFailTime > 30 * Second)
    (hf : cb.failures < 2147483647) :
    cb.Call env fn a tr =
        (match fn a (tr ++ [Effect.now]) with
        | (some e, a1, tr1) =>
          { err := some e
            cb := { cb with state := StateOpen, failures := cb.failures + 1,
                            lastFailTime := UnixNano (env.clock tr1) }
            captured := a1, trace := tr1 ++ [Effect.now] }
        | (none, a1, tr1) =>
          { err := none, cb := { cb with state := StateClosed, failures := 0 },
            captured := a1, trace := tr1 }) ∧
      ∀ (o : Option Error) (n : Nat), (cb.Call env (oracleFn o) n tr).captured = n + 1 := by
  obtain ⟨hm, ht, h1, h2, h3⟩ := gateReachable_inv env cb hr
  have h5 := h3 ho
  have hsub : Sub (env.clock tr) (Unix0 cb.lastFailTime) > cb.timeout := by
    rw [ht, sub_gt_thirty]
    exact hc
  have hw : wrap32 (cb.failures + 1) = cb.failures + 1 := by
    unfold wrap32
    omega
  have hge : cb.failures + 1 ≥ cb.maxFailures := by
    rw [hm]
    omega
  refine ⟨?_, ?_⟩
  · rw [call_open_passes env cb fn a tr ho hsub, attempt_eq]
    rcases hfn : fn a (tr ++ [Effect.now]) with ⟨_ | e, a1, tr1⟩
    · rfl
    · simp only [hw, if_pos hge]
  · intro o n
    rw [call_open_passes env cb (oracleFn o) n tr ho hsub, attempt_eq]
    cases o <;> rfl

theorem halfOpen_trial_witness :
    (CircuitBreaker.Call (worldWhere (clockAt (31 * Second)) (true, false) "")
        { state := StateOpen, failures := 5, lastFailTime := 0, maxFailures := 5,
          timeout := 30 * Second } (oracleFn none) 0 []).captured = 0 + 1 :=
  (halfOpen_trial (worldWhere (clockAt (31 * Second)) (true, false) "")
    { state := StateOpen, failures := 5, lastFailTime := 0, maxFailures := 5,
      timeout := 30 * Second } (reachable_open_five _) rfl (oracleFn none) 0 []
    (by decide) (by decide)).2 none 0

/-! ## Health check -/

theorem probeHealth_eq (env : Env) (p : PaymentProcessor) (processorType : String)
    (tr : List Effect) :
    (probeHealth env p processorType tr).2.2 =
        tr ++ [Effect.now,
          Effect.get ((if processorType = "fallback" then p.fallbackURL else p.defaultURL) ++
            "/payments/service-health") (1 * Second)] ∧
      (probeHealth env p processorType tr).2.1 =
        { p with lastHealthCheck :=
            fun k => if k = processorType then some (env.clock tr) else p.lastHealthCheck k } ∧
      ((probeHealth env p processorType tr).1 = true ↔
        env.get (tr ++ [Effect.now])
          ((if processorType = "fallback" then p.fallbackURL else p.defaultURL) ++
            "/payments/service-health") (1 * Second) = GetResponse.resp 200 (some false)) := by
  unfold probeHealth
  simp only [Env.Now, Env.Get]
  rcases hg : env.get (tr ++ [Effect.now])
      ((if processorType = "fallback" then p.fallbackURL else p.defaultURL) ++
        "/payments/service-health") (1 * Second) with _ | ⟨status, body⟩
  · simp
  · by_cases hs : status = 200
    · subst hs
      rcases body with _ | failing
      · simp
      · cases failing <;> simp
    · simp [hs]

/-- C9: with a coordination store whose `SetNX` returns an error (and hence the
flag false), an empty local timestamp cache and an upstream that does not
answer, `isHealthy` returns eligible, records nothing in the local cache and
sends no liveness request, whereas the local-cache path on the same input probes
and returns ineligible. -/
theorem isHealthy_store_error :
    (isHealthy (worldWhere (clockAt 0) (false, true) "") (NewPaymentProcessor true)
        "default" []).1 = true ∧
      (isHealthy (worldWhere (clockAt 0) (false, true) "") (NewPaymentProcessor true)
        "default" []).2.2 = [Effect.setNX "healthcheck:default" "1" (5 * Second)] ∧
      (isHealthy (worldWhere (clockAt 0) (false, true) "") (NewPaymentProcessor true)
        "default" []).2.1.lastHealthCheck "default" = none ∧
      (localHealth (worldWhere (clockAt 0) (false, true) "") (NewPaymentProcessor true)
        "default" [Effect.setNX "healthcheck:default" "1" (5 * Second)]).1 = false ∧
      (localHealth (worldWhere (clockAt 0) (false, true) "") (NewPaymentProcessor true)
        "default" [Effect.setNX "healthcheck:default" "1" (5 * Second)]).2.2 =
        [Effect.setNX "healthcheck:default" "1" (5 * Second), Effect.now,
          Effect.get "http://payment-processor-default:8080/payments/service-health"
            (1 * Second)] := by
  decide

/-- C10, counterexample: the marker is acquired, the local cache holds a check
one second old and the upstream does not answer; `isHealthy` returns eligible
and sends no liveness request. -/
theorem isHealthy_acquired_skips_probe :
    (isHealthy (worldWhere (fun _ => 1 * Second) (true, false) "")
        { NewPaymentProcessor true with
          lastHealthCheck := fun k => if k = "default" then some 0 else none }
        "default" []).1 = true ∧
      (isHealthy (worldWhere (fun _ => 1 * Second) (true, false) "")
        { NewPaymentProcessor true with
          lastHealthCheck := fun k => if k = "default" then some 0 else none }
        "default" []).2.2 =
        [Effect.setNX "healthcheck:default" "1" (5 * Second), Effect.now] ∧
      (worldWhere (fun _ => 1 * Second) (true, false) "").get
        [Effect.setNX "healthcheck:default" "1" (5 * Second), Effect.now, Effect.now]
        "http://payment-processor-default:8080/payments/service-health" (1 * Second) =
        GetResponse.err := by
  decide

/-- C10, amended: whenever the marker is acquired and the local cache holds no
check of that upstream less than 5s old, `isHealthy` records the check time,
sends the liveness request and returns its result: eligible if and only if the
request succeeds with status 200, the body parses and `failing` is false. -/
theorem isHealthy_acquired_probes (env : Env) (p : PaymentProcessor)
    (processorType : String) (tr : List Effect) (hcache : p.cache = true)
    (hnx : (env.setNX tr ("healthcheck:" ++ processorType) "1" (5 * Second)).1 = true)
    (hlocal : ∀ lastCheck, p.lastHealthCheck processorType = some lastCheck →
      ¬ (Sub (env.clock (tr ++ [Effect.setNX ("healthcheck:" ++ processorType) "1"
        (5 * Second)])) lastCheck < 5 * Second)) :
    ∀ tr2, tr2 = tr ++ [Effect.setNX ("healthcheck:" ++ processorType) "1" (5 * Second)] ++
        (if (p.lastHealthCheck processorType).isSome then [Effect.now] else []) →
      isHealthy env p processorType tr = probeHealth env p processorType tr2 ∧
      (isHealthy env p processorType tr).2.2 =
        tr2 ++ [Effect.now,
          Effect.get ((if processorType = "fallback" then p.fallbackURL else p.defaultURL) ++
            "/payments/service-health") (1 * Second)] ∧
      (isHealthy env p processorType tr).2.1.lastHealthCheck processorType =
        some (env.clock tr2) ∧
      ((isHealthy env p processorType tr).1 = true ↔
        env.get (tr2 ++ [Effect.now])
          ((if processorType = "fallback" then p.fallbackURL else p.defaultURL) ++
            "/payments/service-health") (1 * Second) = GetResponse.resp 200 (some false)) := by
  intro tr2 htr2
  have hmain : isHealthy env p processorType tr = probeHealth env p processorType tr2 := by
    unfold isHealthy
    simp only [hcache, if_true, Env.SetNX]
    rcases hv : env.setNX tr ("healthcheck:" ++ processorType) "1" (5 * Second) with ⟨ok, e⟩
    rw [hv] at hnx
    simp only at hnx
    subst hnx
    simp only [Bool.not_true, Bool.false_eq_true, if_false]
    unfold localHealth
    rcases hl : p.lastHealthCheck processorType with _ | lastCheck
    · rw [hl] at htr2
      simp only [Option.isSome_none, Bool.false_eq_true, if_false, List.append_nil] at htr2
      rw [htr2]
    · rw [hl] at htr2
      simp only [Option.isSome_some, if_true] at htr2
      have := hlocal lastCheck hl
      simp only [Env.Now, if_neg this]
      rw [htr2]
  obtain ⟨h1, h2, h3⟩ := probeHealth_eq env p processorType tr2
  rw [hmain]
  refine ⟨rfl, h1, ?_, h3⟩
  rw [h2]
  simp

theorem isHealthy_acquired_probes_witness :
    (isHealthy (worldWhere (fun _ => 7 * Second) (true, false)
        "http://payment-processor-default:8080")
      { NewPaymentProcessor true with
        lastHealthCheck := fun k => if k = "default" then some 0 else none }
      "default" []).1 = true :=
  ((isHealthy_acquired_probes (worldWhere (fun _ => 7 * Second) (true, false)
        "http://payment-processor-default:8080")
      { NewPaymentProcessor true with
        lastHealthCheck := fun k => if k = "default" then some 0 else none }
      "default" [] rfl rfl (by decide) _ rfl).2.2.2).2 (by decide)

/-! ## Dispatcher -/

/-- The fields of the processor that no health check changes. -/
theorem probeHealth_frame (env : Env) (p : PaymentProcessor) (processorType : String)
    (tr : List Effect) :
    (probeHealth env p processorType tr).2.1.defaultURL = p.defaultURL ∧
      (probeHealth env p processorType tr).2.1.fallbackURL = p.fallbackURL ∧
      (probeHealth env p processorType tr).2.1.defaultCB = p.defaultCB ∧
      (probeHealth env p processorType tr).2.1.fallbackCB = p.fallbackCB ∧
      (probeHealth env p processorType tr).2.1.cache = p.cache := by
  rw [(probeHealth_eq env p processorType tr).2.1]
  exact ⟨rfl, rfl, rfl, rfl, rfl⟩

theorem localHealth_frame (env : Env) (p : PaymentProcessor) (processorType : String)
    (tr : List Effect) :
    (localHealth env p processorType tr).2.1.defaultURL = p.defaultURL ∧
      (localHealth env p processorType tr).2.1.fallbackURL = p.fallbackURL ∧
      (localHealth env p processorType tr).2.1.defaultCB = p.defaultCB ∧
      (localHealth env p processorType tr).2.1.fallbackCB = p.fallbackCB ∧
      (localHealth env p processorType tr).2.1.cache = p.cache := by
  unfold localHealth
  rcases hl : p.lastHealthCheck processorType with _ | lastCheck
  · exact probeHealth_frame env p processorType tr
  · simp only [Env.Now]
    split
    · exact ⟨rfl, rfl, rfl, rfl, rfl⟩
    · exact probeHealth_frame env p processorType _

theorem isHealthy_frame (env : Env) (p : PaymentProcessor) (processorType : String)
    (tr : List Effect) :
    (isHealthy env p processorType tr).2.1.defaultURL = p.defaultURL ∧
      (isHealthy env p processorType tr).2.1.fallbackURL = p.fallbackURL ∧
      (isHealthy env p processorType tr).2.1.defaultCB = p.defaultCB ∧
      (isHealthy env p processorType tr).2.1.fallbackCB = p.fallbackCB ∧
      (isHealthy env p processorType tr).2.1.cache = p.cache := by
  unfold isHealthy
  split
  · simp only [Env.SetNX]
    split
    · exact ⟨rfl, rfl, rfl, rfl, rfl⟩
    · exact localHealth_frame env p processorType _
  · exact localHealth_frame env p processorType tr

theorem tryProcessor_frame (env : Env) (payment : Payment) (processorType : String)
    (p : PaymentProcessor) (tr : List Effect) :
    (tryProcessor env payment processorType p tr).2.1.defaultURL = p.defaultURL ∧
      (tryProcessor env payment processorType p tr).2.1.fallbackURL = p.fallbackURL ∧
      (tryProcessor env payment processorType p tr).2.1.defaultCB = p.defaultCB ∧
      (tryProcessor env payment processorType p tr).2.1.fallbackCB = p.fallbackCB ∧
      (tryProcessor env payment processorType p tr).2.1.cache = p.cache := by
  have h := isHealthy_frame env p processorType tr
  unfold tryProcessor
  rcases hh : isHealthy env p processorType tr with ⟨healthy, p1, tr1⟩
  rw [hh] at h
  cases healthy
  · exact h
  · simp only [Bool.not_true, Bool.false_eq_true, if_false, Env.Post]
    split
    · exact h
    · split <;> exact h
    · exact h

theorem extends_refl (Q : Effect → Prop) (tr : List Effect) : Extends Q tr tr :=
  ⟨[], by simp, by simp⟩

theorem extends_snoc (Q : Effect → Prop) (tr1 tr2 : List Effect) (e : Effect)
    (h : Extends Q tr1 tr2) (he : Q e) : Extends Q tr1 (tr2 ++ [e]) := by
  obtain ⟨added, h1, h2⟩ := h
  refine ⟨added ++ [e], by rw [h1, List.append_assoc], ?_⟩
  intro x hx
  rcases List.mem_append.mp hx with hx | hx
  · exact h2 x hx
  · rw [List.mem_singleton.mp hx]
    exact he

theorem extends_trans (Q : Effect → Prop) (tr1 tr2 tr3 : List Effect)
    (h12 : Extends Q tr1 tr2) (h23 : Extends Q tr2 tr3) : Extends Q tr1 tr3 := by
  obtain ⟨a, h1, h2⟩ := h12
  obtain ⟨b, h3, h4⟩ := h23
  refine ⟨a ++ b, by rw [h3, h1, List.append_assoc], ?_⟩
  intro x hx
  rcases List.mem_append.mp hx with hx | hx
  · exact h2 x hx
  · exact h4 x hx

theorem probeHealth_extends (env : Env) (p : PaymentProcessor) (processorType : String)
    (tr : List Effect) :
    Extends (Effect.concerns (urlOf p processorType) processorType) tr
      (probeHealth env p processorType tr).2.2 := by
  rw [(probeHealth_eq env p processorType tr).1]
  refine ⟨_, rfl, ?_⟩
  intro e he
  simp only [List.mem_cons, List.mem_singleton, List.not_mem_nil, or_false] at he
  rcases he with rfl | rfl
  · trivial
  · rfl

theorem localHealth_extends (env : Env) (p : PaymentProcessor) (processorType : String)
    (tr : List Effect) :
    Extends (Effect.concerns (urlOf p processorType) processorType) tr
      (localHealth env p processorType tr).2.2 := by
  unfold localHealth
  rcases hl : p.lastHealthCheck processorType with _ | lastCheck
  · exact probeHealth_extends env p processorType tr
  · simp only [Env.Now]
    have hnow : Extends (Effect.concerns (urlOf p processorType) processorType) tr
        (tr ++ [Effect.now]) := extends_snoc _ _ _ _ (extends_refl _ _) trivial
    split
    · exact hnow
    · exact extends_trans _ _ _ _ hnow (probeHealth_extends env p processorType _)

theorem isHealthy_extends (env : Env) (p : PaymentProcessor) (processorType : String)
    (tr : List Effect) :
    Extends (Effect.concerns (urlOf p processorType) processorType) tr
      (isHealthy env p processorType tr).2.2 := by
  unfold isHealthy
  split
  · simp only [Env.SetNX]
    have hnx : Extends (Effect.concerns (urlOf p processorType) processorType) tr
        (tr ++ [Effect.setNX ("healthcheck:" ++ processorType) "1" (5 * Second)]) :=
      extends_snoc _ _ _ _ (extends_refl _ _) rfl
    split
    · exact hnx
    · exact extends_trans _ _ _ _ hnx (localHealth_extends env p processorType _)
  · exact localHealth_extends env p processorType tr

theorem tryProcessor_extends (env : Env) (payment : Payment) (processorType : String)
    (p : PaymentProcessor) (tr : List Effect) :
    Extends (Effect.concerns (urlOf p processorType) processorType) tr
      (tryProcessor env payment processorType p tr).2.2 := by
  have h := isHealthy_extends env p processorType tr
  unfold tryProcessor
  rcases hh : isHealthy env p processorType tr with ⟨healthy, p1, tr1⟩
  rw [hh] at h
  cases healthy
  · exact h
  · simp only [Bool.not_true, Bool.false_eq_true, if_false, Env.Post]
    have hpost : Extends (Effect.concerns (urlOf p processorType) processorType) tr
        (tr1 ++ [Effect.post ((if processorType = "fallback" then p.fallbackURL
          else p.defaultURL) ++ "/payments") (buildPaymentRequest env payment)]) :=
      extends_snoc _ _ _ _ h rfl
    split
    · exact hpost
    · split <;> exact hpost
    · exact hpost

theorem attempt_extends {α : Type} (env : Env) (cb : CircuitBreaker) (fn : Fn α) (a : α)
    (tr : List Effect) (Q : Effect → Prop) (hnow : Q Effect.now)
    (hfn : ∀ tr1, Extends Q tr1 (fn a tr1).2.2) :
    Extends Q tr (CircuitBreaker.attempt env cb fn a tr).trace := by
  have h := hfn tr
  rw [attempt_eq]
  rcases hf : fn a tr with ⟨_ | e, a1, tr1⟩
  · rw [hf] at h
    exact h
  · rw [hf] at h
    exact extends_snoc _ _ _ _ h hnow

theorem call_extends {α : Type} (env : Env) (cb : CircuitBreaker) (fn : Fn α) (a : α)
    (tr : List Effect) (Q : Effect → Prop) (hnow : Q Effect.now)
    (hfn : ∀ tr1, Extends Q tr1 (fn a tr1).2.2) :
    Extends Q tr (cb.Call env fn a tr).trace := by
  have hstep : Extends Q tr (tr ++ [Effect.now]) :=
    extends_snoc _ _ _ _ (extends_refl _ _) hnow
  by_cases hs : cb.state = StateOpen
  · by_cases hc : Sub (env.clock tr) (Unix0 cb.lastFailTime) > cb.timeout
    · rw [call_open_passes env cb fn a tr hs hc]
      exact extends_trans _ _ _ _ hstep (attempt_extends env _ fn a _ Q hnow hfn)
    · rw [call_open_rejects env cb fn a tr hs hc]
      exact hstep
  · rw [call_not_open env cb fn a tr hs]
    exact attempt_extends env cb fn a tr Q hnow hfn

theorem attempt_captured {α : Type} (env : Env) (cb : CircuitBreaker) (fn : Fn α) (a : α)
    (tr : List Effect) :
    (CircuitBreaker.attempt env cb fn a tr).captured = (fn a tr).2.1 := by
  rw [attempt_eq]
  rcases hf : fn a tr with ⟨_ | e, a1, tr1⟩ <;> rfl

theorem call_captured {α : Type} (env : Env) (cb : CircuitBreaker) (fn : Fn α) (a : α)
    (tr : List Effect) (P : α → Prop) (ha : P a) (hfn : ∀ tr1, P (fn a tr1).2.1) :
    P (cb.Call env fn a tr).captured := by
  by_cases hs : cb.state = StateOpen
  · by_cases hc : Sub (env.clock tr) (Unix0 cb.lastFailTime) > cb.timeout
    · rw [call_open_passes env cb fn a tr hs hc, attempt_captured]
      exact hfn _
    · rw [call_open_rejects env cb fn a tr hs hc]
      exact ha
  · rw [call_not_open env cb fn a tr hs, attempt_captured]
    exact hfn _

theorem attempt_err {α : Type} (env : Env) (cb : CircuitBreaker) (fn : Fn α) (a : α)
    (tr : List Effect) :
    (CircuitBreaker.attempt env cb fn a tr).err = (fn a tr).1 := by
  rw [attempt_eq]
  rcases hf : fn a tr with ⟨_ | e, a1, tr1⟩ <;> rfl

theorem call_err_of_admits {α : Type} (env : Env) (cb : CircuitBreaker) (fn : Fn α) (a : α)
    (tr : List Effect) (hadm : Admits cb (env.clock tr))
    (hfn : ∀ tr1, (fn a tr1).1 = none) :
    (cb.Call env fn a tr).err = none := by
  by_cases hs : cb.state = StateOpen
  · rcases hadm with h | h
    · exact absurd hs h
    · rw [call_open_passes env cb fn a tr hs h, attempt_err]
      exact hfn _
  · rw [call_not_open env cb fn a tr hs, attempt_err]
    exact hfn _

theorem isHealthy_of_up (env : Env) (p : PaymentProcessor) (processorType : String)
    (tr : List Effect) (hup : UpstreamUp env (urlOf p processorType)) :
    (isHealthy env p processorType tr).1 = true := by
  have hprobe : ∀ tr1, (probeHealth env p processorType tr1).1 = true := fun tr1 =>
    (probeHealth_eq env p processorType tr1).2.2.mpr (hup.1 _ _)
  have hlocal : ∀ tr1, (localHealth env p processorType tr1).1 = true := by
    intro tr1
    unfold localHealth
    rcases hl : p.lastHealthCheck processorType with _ | lastCheck
    · exact hprobe tr1
    · simp only [Env.Now]
      split
      · rfl
      · exact hprobe _
  unfold isHealthy
  split
  · simp only [Env.SetNX]
    split
    · rfl
    · exact hlocal _
  · exact hlocal tr

theorem tryProcessor_of_up (env : Env) (payment : Payment) (processorType : String)
    (p : PaymentProcessor) (tr : List Effect) (hup : UpstreamUp env (urlOf p processorType)) :
    (tryProcessor env payment processorType p tr).1 = none := by
  have h := isHealthy_of_up env p processorType tr hup
  unfold tryProcessor
  rcases hh : isHealthy env p processorType tr with ⟨healthy, p1, tr1⟩
  rw [hh] at h
  simp only at h
  subst h
  simp only [Bool.not_true, Bool.false_eq_true, if_false, Env.Post]
  obtain ⟨status, hst, h200, h300⟩ := hup.2 tr1 (buildPaymentRequest env payment)
  unfold urlOf at hst
  rw [hst]
  have hno : ¬ (status < 200 ∨ status ≥ 300) := by omega
  simp only [if_neg hno]

theorem storePayment_default (s : MemoryStorage) (payment : Payment) :
    (s.StorePayment { payment with ProcessorType := "default" }).payments =
        s.payments ++ [{ payment with ProcessorType := "default" }] ∧
      (s.StorePayment { payment with ProcessorType := "default" }).GetSummary none none =
        { Default := s.defaultSummary.add payment.AmountCents, Fallback := s.fallbackSummary } := by
  simp [MemoryStorage.StorePayment, MemoryStorage.GetSummary]

theorem storePayment_fallback (s : MemoryStorage) (payment : Payment) :
    (s.StorePayment { payment with ProcessorType := "fallback" }).payments =
        s.payments ++ [{ payment with ProcessorType := "fallback" }] ∧
      (s.StorePayment { payment with ProcessorType := "fallback" }).GetSummary none none =
        { Default := s.defaultSummary, Fallback := s.fallbackSummary.add payment.AmountCents } := by
  simp [MemoryStorage.StorePayment, MemoryStorage.GetSummary]

theorem processPayment_eq (env : Env) (p : PaymentProcessor) (payment : Payment)
    (storage : MemoryStorage) (tr : List Effect) :
    ∀ r1 p1 r2,
      r1 = p.defaultCB.Call env (tryProcessor env payment "default") p tr →
      p1 = { r1.captured with defaultCB := r1.cb } →
      r2 = p1.fallbackCB.Call env (tryProcessor env payment "fallback") p1 r1.trace →
      ProcessPayment env p payment storage tr = (match r1.err with
      | none =>
        { p := p1, payment := { payment with ProcessorType := "default" },
          storage := storage.StorePayment { payment with ProcessorType := "default" },
          trace := r1.trace }
      | some _ =>
        match r2.err with
        | none =>
          { p := { r2.captured with fallbackCB := r2.cb },
            payment := { payment with ProcessorType := "fallback" },
            storage := storage.StorePayment { payment with ProcessorType := "fallback" },
            trace := r2.trace }
        | some _ =>
          { p := { r2.captured with fallbackCB := r2.cb }, payment := payment,
            storage := storage, trace := r2.trace ++ [Effect.log payment.CorrelationID] }) := by
  intro r1 p1 r2 h1 hp1 h2
  rw [h2, hp1, h1]
  rfl

/-- C2: for every payment, every state of the two gates and every world,
`ProcessPayment` appends the payment to the ledger exactly once, tagged with the
first upstream, primary before secondary, whose gated attempt succeeds; when the
primary succeeds nothing is done for the secondary (its gate is untouched and
every interaction is a clock reading or belongs to the primary); when both
gated attempts fail the ledger is left as it was. -/
theorem processPayment_first_success (env : Env) (p : PaymentProcessor) (payment : Payment)
    (storage : MemoryStorage) (tr : List Effect) :
    ∀ r1 p1 r2 R,
      r1 = p.defaultCB.Call env (tryProcessor env payment "default") p tr →
      p1 = { r1.captured with defaultCB := r1.cb } →
      r2 = p1.fallbackCB.Call env (tryProcessor env payment "fallback") p1 r1.trace →
      R = ProcessPayment env p payment storage tr →
      (r1.err = none →
        R.storage = storage.StorePayment { payment with ProcessorType := "default" } ∧
        R.storage.payments =
          storage.payments ++ [{ payment with ProcessorType := "default" }] ∧
        R.storage.GetSummary none none =
          { Default := storage.defaultSummary.add payment.AmountCents,
            Fallback := storage.fallbackSummary } ∧
        R.payment.ProcessorType = "default" ∧
        R.p.fallbackCB = p.fallbackCB ∧ R.trace = r1.trace ∧
        Extends (Effect.concerns p.defaultURL "default") tr R.trace) ∧
      (r1.err ≠ none → r2.err = none →
        R.storage = storage.StorePayment { payment with ProcessorType := "fallback" } ∧
        R.storage.payments =
          storage.payments ++ [{ payment with ProcessorType := "fallback" }] ∧
        R.storage.GetSummary none none =
          { Default := storage.defaultSummary,
            Fallback := storage.fallbackSummary.add payment.AmountCents } ∧
        R.payment.ProcessorType = "fallback" ∧ R.trace = r2.trace) ∧
      (r1.err ≠ none → r2.err ≠ none →
        R.storage = storage ∧ R.storage.payments = storage.payments ∧
        R.storage.GetSummary none none = storage.GetSummary none none) := by
  intro r1 p1 r2 R h1 hp1 h2 hR
  have hRdef := processPayment_eq env p payment storage tr r1 p1 r2 h1 hp1 h2
  rw [← hR] at hRdef
  refine ⟨?_, ?_, ?_⟩
  · intro he
    rw [he] at hRdef
    simp only at hRdef
    have hfb : p1.fallbackCB = p.fallbackCB := by
      rw [hp1]
      show r1.captured.fallbackCB = p.fallbackCB
      rw [h1]
      exact call_captured env p.defaultCB (tryProcessor env payment "default") p tr
        (fun q => q.fallbackCB = p.fallbackCB) rfl
        (fun tr1 => (tryProcessor_frame env payment "default" p tr1).2.2.2.1)
    have hext : Extends (Effect.concerns p.defaultURL "default") tr r1.trace := by
      rw [h1]
      exact call_extends env p.defaultCB (tryProcessor env payment "default") p tr _ trivial
        (fun tr1 => tryProcessor_extends env payment "default" p tr1)
    rw [hRdef]
    exact ⟨rfl, (storePayment_default storage payment).1,
      (storePayment_default storage payment).2, rfl, hfb, rfl, hext⟩
  · intro he1 he2
    rcases hr1 : r1.err with _ | e1
    · exact absurd hr1 he1
    · rw [hr1, he2] at hRdef
      simp only at hRdef
      rw [hRdef]
      exact ⟨rfl, (storePayment_fallback storage payment).1,
        (storePayment_fallback storage payment).2, rfl, rfl⟩
  · intro he1 he2
    rcases hr1 : r1.err with _ | e1
    · exact absurd hr1 he1
    · rcases hr2 : r2.err with _ | e2
      · exact absurd hr2 he2
      · rw [hr1, hr2] at hRdef
        simp only at hRdef
        rw [hRdef]
        exact ⟨rfl, rfl, rfl⟩

theorem processPayment_first_success_witness :
    (ProcessPayment (worldWhere (clockAt 0) (true, false)
        "http://payment-processor-default:8080") (NewPaymentProcessor true)
        ⟨"abc", 1990, 0, ""⟩ NewMemoryStorage []).storage.payments =
      NewMemoryStorage.payments ++ [{ (⟨"abc", 1990, 0, ""⟩ : Payment) with
        ProcessorType := "default" }] :=
  ((processPayment_first_success (worldWhere (clockAt 0) (true, false)
      "http://payment-processor-default:8080") (NewPaymentProcessor true)
      ⟨"abc", 1990, 0, ""⟩ NewMemoryStorage [] _ _ _ _ rfl rfl rfl rfl).1 (by decide)).2.1

theorem worldWhere_up (clock : List Effect → Int) (nx : Bool × Bool) (url : String) :
    UpstreamUp (worldWhere clock nx url) url := by
  refine ⟨fun tr timeout => ?_, fun tr body => ⟨200, ?_, by decide, by decide⟩⟩
  · simp [worldWhere]
  · simp [worldWhere]

/-- C3, counterexample: the primary answers and the secondary does not, but the
gate of the primary is Open and only one second has passed since its last
failure; `ProcessPayment` records nothing. -/
theorem processPayment_drops_behind_open_gate :
    UpstreamUp (worldWhere (fun _ => 1 * Second) (true, false)
        "http://payment-processor-default:8080") (NewPaymentProcessor true).defaultURL ∧
      (∀ tr body, (worldWhere (fun _ => 1 * Second) (true, false)
        "http://payment-processor-default:8080").post tr
        ((NewPaymentProcessor true).fallbackURL ++ "/payments") body = PostResponse.err) ∧
      (ProcessPayment (worldWhere (fun _ => 1 * Second) (true, false)
          "http://payment-processor-default:8080")
        { NewPaymentProcessor true with
          defaultCB := { state := StateOpen, failures := 5, lastFailTime := 0,
                         maxFailures := 5, timeout := 30 * Second } }
        ⟨"abc", 1990, 0, ""⟩ NewMemoryStorage []).storage = NewMemoryStorage := by
  refine ⟨worldWhere_up _ _ _, fun tr body => ?_, by decide⟩
  rfl

/-- C3, amended: for every payment and every state of the two gates, if one
upstream answers (liveness and settlement) and its gate lets the call through
(the gate is not Open, or the time since `lastFailTime` exceeds its cooldown),
the other attempt having failed when that upstream is the secondary, then
`ProcessPayment` records the payment in the ledger under that upstream exactly
once. -/
theorem processPayment_only_up (env : Env) (p : PaymentProcessor) (payment : Payment)
    (storage : MemoryStorage) (tr : List Effect) (processorType : String)
    (h : OnlyUp env p payment tr processorType) :
    (ProcessPayment env p payment storage tr).storage =
        storage.StorePayment { payment with ProcessorType := processorType } ∧
      (ProcessPayment env p payment storage tr).storage.payments =
        storage.payments ++ [{ payment with ProcessorType := processorType }] ∧
      (ProcessPayment env p payment storage tr).payment.ProcessorType = processorType := by
  have heq := processPayment_eq env p payment storage tr _ _ _ rfl rfl rfl
  rcases h with ⟨hpt, hup, hadm⟩ | ⟨hpt, hup, hfail, hadm⟩
  · subst hpt
    have herr : (p.defaultCB.Call env (tryProcessor env payment "default") p tr).err = none :=
      call_err_of_admits env p.defaultCB _ p tr hadm
        (fun tr1 => tryProcessor_of_up env payment "default" p tr1 hup)
    rw [herr] at heq
    simp only at heq
    rw [heq]
    exact ⟨rfl, storePayment_payments _ _, rfl⟩
  · subst hpt
    rcases hr1 : (p.defaultCB.Call env (tryProcessor env payment "default") p tr).err
      with _ | e1
    · exact absurd hr1 hfail
    · have hframe := call_captured env p.defaultCB (tryProcessor env payment "default") p tr
        (fun q => q.fallbackURL = p.fallbackURL ∧ q.fallbackCB = p.fallbackCB) ⟨rfl, rfl⟩
        (fun tr1 => ⟨(tryProcessor_frame env payment "default" p tr1).2.1,
          (tryProcessor_frame env payment "default" p tr1).2.2.2.1⟩)
      have herr : (CircuitBreaker.Call env
          ({ (p.defaultCB.Call env (tryProcessor env payment "default") p tr).captured with
            defaultCB := (p.defaultCB.Call env (tryProcessor env payment "default") p tr).cb }
            : PaymentProcessor).fallbackCB
          (tryProcessor env payment "fallback")
          { (p.defaultCB.Call env (tryProcessor env payment "default") p tr).captured with
            defaultCB := (p.defaultCB.Call env (tryProcessor env payment "default") p tr).cb }
          (p.defaultCB.Call env (tryProcessor env payment "default") p tr).trace).err =
          none := by
        apply call_err_of_admits
        · show Admits (p.defaultCB.Call env (tryProcessor env payment "default") p
            tr).captured.fallbackCB _
          rw [hframe.2]
          exact hadm
        · intro tr1
          apply tryProcessor_of_up
          show UpstreamUp env (p.defaultCB.Call env (tryProcessor env payment "default") p
            tr).captured.fallbackURL
          rw [hframe.1]
          exact hup
      rw [hr1, herr] at heq
      simp only at heq
      rw [heq]
      exact ⟨rfl, storePayment_payments _ _, rfl⟩

theorem processPayment_only_up_witness :
    (ProcessPayment (worldWhere (fun _ => 1 * Second) (true, false)
        "http://payment-processor-fallback:8080") (NewPaymentProcessor true)
        ⟨"abc", 1990, 0, ""⟩ NewMemoryStorage []).storage.payments =
      NewMemoryStorage.payments ++ [{ (⟨"abc", 1990, 0, ""⟩ : Payment) with
        ProcessorType := "fallback" }] :=
  (processPayment_only_up (worldWhere (fun _ => 1 * Second) (true, false)
      "http://payment-processor-fallback:8080") (NewPaymentProcessor true)
      ⟨"abc", 1990, 0, ""⟩ NewMemoryStorage [] "fallback"
      (Or.inr ⟨rfl, worldWhere_up _ _ _, by decide, Or.inl (by decide)⟩)).2.1

end Rinha
